import Mathlib

/-!
Verification of the CADSCRIBE versioned script processing and recovery
pipeline (`backend/services/s3_service.py`, `backend/routes/scripts.py`).

The object store is modelled as an association list from keys to object
bodies; keys are modelled as `List Char` so that the Python string
manipulation (prefix listing, regex suffix matching, f-string key
construction) can be embedded and reasoned about directly.  Auxiliary S3
object attributes that no verified property depends on (object sizes,
last-modified timestamps, S3 metadata tags, pre-signed URLs) are not
modelled; wall-clock timestamps are modelled as an abstract `Nat` passed
in by the caller.
-/

set_option maxRecDepth 100000

/-- Python strings are modelled as lists of characters. -/
abbrev Str := List Char

namespace Cadscribe

/-- Python `str.lower()` (the sources only feed ASCII text). -/
def lowerS (s : Str) : Str := s.map Char.toLower

/-- Python `str.upper()` (the sources only feed ASCII text). -/
def upperS (s : Str) : Str := s.map Char.toUpper

/-- Python `str.strip()`: drop whitespace from both ends. -/
def stripS (s : Str) : Str :=
  ((s.dropWhile Char.isWhitespace).reverse.dropWhile Char.isWhitespace).reverse

/-- Python `str.startswith` / key-prefix test used by `list_objects_v2(Prefix=...)`. -/
def hasPref : Str → Str → Bool
  | [], _ => true
  | _ :: _, [] => false
  | a :: as, b :: bs => a == b && hasPref as bs

/-- Python `str.endswith`. -/
def hasSuf (suf s : Str) : Bool := hasPref suf.reverse s.reverse

/-- Python substring containment (`needle in haystack`). -/
def hasSub (needle : Str) : Str → Bool
  | [] => hasPref needle []
  | c :: rest => hasPref needle (c :: rest) || hasSub needle rest

/-- Decimal digit character for a value `d < 10`. -/
def digitChar (d : Nat) : Char := Char.ofNat (48 + d)

/-- Numeric value of a decimal digit character. -/
def digitVal (c : Char) : Nat := c.toNat - 48

/-- Python `int(s)` on a string of decimal digits. -/
def digitsToNat (s : Str) : Nat := s.foldl (fun a c => a * 10 + digitVal c) 0

/-- Fuel-driven decimal rendering helper (fuel bounds the digit count). -/
def natCharsCore : Nat → Nat → Str
  | 0, _ => []
  | _, 0 => []
  | fuel + 1, n + 1 => natCharsCore fuel ((n + 1) / 10) ++ [digitChar ((n + 1) % 10)]

/-- Python `str(n)` / f-string rendering of a nonnegative integer. -/
def natChars (n : Nat) : Str := if n = 0 then "0".data else natCharsCore (n + 1) n

/-! ## The object store

`s3_service.py` stores several kinds of objects.  Script sources and log
texts are plain text; the processed marker is a zero-byte object
(`Body=b''`); the error record and the auto-fix audit record are JSON
documents, modelled here as structured values; output artifacts written by
the external worker are opaque binary files whose content the backend
never inspects. -/
/-- The ErrorRecord JSON document written by `mark_script_failed` at
`errors/{p}/{p}_v{v}_error.json` and rewritten by `retry_failed_script`.
The `failed_at` / `next_retry_after` / `retry_attempted_at` timestamps are
abstract instants. -/
structure ErrorRecord where
  project_name : Str
  version : Nat
  status : Str
  error_message : Str
  retry_count : Nat
  failed_at : Nat
  max_retries : Nat
  next_retry_after : Option Nat
  retry_attempted_at : Option Nat
  deriving DecidableEq

/-- The auto-fix audit JSON written by `auto_fix_failed_script` under
`logs/{p}/{p}_autofix_v{v}_{timestamp}.json`. -/
structure FixLog where
  project_name : Str
  version : Nat
  action : Str
  original_error : Str
  fixed_at : Nat
  fix_type : Str
  log_status : Str
  deriving DecidableEq

/-- Object bodies.  `blob` stands for a worker-produced output artifact
(opaque binary content). -/
inductive Body where
  | text (s : Str)
  | emptyBody
  | errJson (e : ErrorRecord)
  | fixJson (l : FixLog)
  | blob
  deriving DecidableEq

/-- The S3 bucket: an association list from keys to bodies, newest entry
first (a `put_object` to an existing key overwrites it). -/
abbrev Store := List (Str × Body)

/-- `get_object`: first (newest) entry at the key, if any. -/
def getObj (k : Str) : Store → Option Body
  | [] => none
  | e :: t => if e.1 = k then some e.2 else getObj k t

/-- Drop every entry stored at key `k`. -/
def removeKey (k : Str) : Store → Store
  | [] => []
  | e :: t => if e.1 = k then removeKey k t else e :: removeKey k t

/-- `put_object` (overwrite semantics at the key level). -/
def putObj (k : Str) (b : Body) (s : Store) : Store :=
  (k, b) :: removeKey k s

/-- `delete_object` (deleting a missing key is not an error in S3). -/
def delObj (k : Str) (s : Store) : Store := removeKey k s

/-- `list_objects_v2(Prefix=pre)` (the 1000-key pagination cap is not
modelled; no verified property creates that many keys). -/
def listPref (pre : Str) : Store → Store
  | [] => []
  | e :: t => if hasPref pre e.1 then e :: listPref pre t else listPref pre t

/-- Drop every entry whose key begins with `pre` (the bulk
`delete_objects` over a listing in `_clear_version_outputs`). -/
def removePref (pre : Str) : Store → Store
  | [] => []
  | e :: t => if hasPref pre e.1 then removePref pre t else e :: removePref pre t

/-! ### Key layout (bit-exact, the external worker depends on it) -/
/-- `input/{project_name}/` — the prefix listed by `get_next_version`. -/
def inputPref (p : Str) : Str := "input/".data ++ p ++ "/".data

/-- `input/{project_name}/{project_name}_v{version}.py`. -/
def scriptKey (p : Str) (v : Nat) : Str :=
  inputPref p ++ p ++ "_v".data ++ natChars v ++ ".py".data

/-- `processed/{project_name}/{project_name}_v{version}.py.done`. -/
def processedKey (p : Str) (v : Nat) : Str :=
  "processed/".data ++ p ++ "/".data ++ p ++ "_v".data ++ natChars v ++ ".py.done".data

/-- `errors/{project_name}/{project_name}_v{version}_error.json`. -/
def errorKey (p : Str) (v : Nat) : Str :=
  "errors/".data ++ p ++ "/".data ++ p ++ "_v".data ++ natChars v ++ "_error.json".data

/-- `output/{project_name}/v{version}/` — the per-version artifact folder. -/
def outputPref (p : Str) (v : Nat) : Str :=
  "output/".data ++ p ++ "/v".data ++ natChars v ++ "/".data

/-- `logs/{project_name}/{project_name}_autofix_v{version}_{ts}.json`
(the `%Y%m%d_%H%M%S` timestamp rendering is abstracted to the instant). -/
def autoFixLogKey (p : Str) (v now : Nat) : Str :=
  "logs/".data ++ p ++ "/".data ++ p ++ "_autofix_v".data ++ natChars v
    ++ "_".data ++ natChars now ++ ".json".data

/-! ## VersionAllocator: `get_next_version`

A `list_objects_v2` call can fail with `ClientError`; `StoreView` is what
one listing observes. -/
/-- Result of one store listing: an error, or a snapshot of the bucket. -/
inductive StoreView where
  | err
  | ok (s : Store)

/-- The regex `search` of `{re.escape(p)}_v(\d+)\.py$` against a key,
returning `int(match.group(1))`.  The key must end in `.py`, preceded by a
nonempty run of digits (necessarily the maximal trailing run, since the
regex requires the character before the digits to be `v`), preceded by
`{p}_v`. -/
def extractVersion (p key : Str) : Option Nat :=
  if hasPref ['y', 'p', '.'] key.reverse then
    let r1 := key.reverse.drop 3
    let ds := r1.takeWhile Char.isDigit
    if ds = [] then none
    else if hasPref ('v' :: '_' :: p.reverse) (r1.drop ds.length) then
      some (digitsToNat ds.reverse)
    else none
  else none

/-- `get_next_version`: lists `input/{p}/`, extracts `_v<N>.py` suffixes,
returns `max(N) + 1`, or `1` when nothing matches; any `ClientError` or
other exception is swallowed and `1` is returned.  (`max(versions)` over a
nonempty list of naturals equals `foldl Nat.max 0`.) -/
def getNextVersion (p : Str) (view : StoreView) : Nat :=
  match view with
  | .err => 1
  | .ok s =>
    if listPref (inputPref p) s = [] then 1
    else if (listPref (inputPref p) s).filterMap (fun e => extractVersion p e.1) = [] then 1
    else ((listPref (inputPref p) s).filterMap (fun e => extractVersion p e.1)).foldl
      Nat.max 0 + 1

/-- `upload_script` (success path): allocate the next version from the
listing the allocator observed, then write the script object.  In a
sequential, fault-free run the observed view is `.ok` of the current
store. -/
def uploadScript (code p : Str) (view : StoreView) (s : Store) : Nat × Store :=
  let version := getNextVersion p view
  (version, putObj (scriptKey p version) (Body.text code) s)

/-- `N` sequential `submit` calls for one job, each allocator reading the
store the previous call left behind; returns the final store and the
allocated versions in order. -/
def submitN (p code : Str) (s : Store) : Nat → Store × List Nat
  | 0 => (s, [])
  | n + 1 =>
    let r := submitN p code s n
    let u := uploadScript code p (.ok r.1) r.1
    (u.2, r.2 ++ [u.1])

/-- A job is fresh in a store when nothing lives under its script namespace. -/
def freshFor (p : Str) (s : Store) : Prop :=
  ∀ e ∈ s, hasPref (inputPref p) e.1 = false

/-- The script entries created by the first `k` submissions, newest first. -/
def scriptEntries (p code : Str) (k : Nat) : Store :=
  (List.range k).reverse.map (fun i => (scriptKey p (i + 1), Body.text code))

/-! ## `check_output_files` and the ProcessingMonitor polling task

`check_output_files` is modelled for a concrete version (the
`output/{p}/v{v}/` branch); every verified property goes through that
branch — the `version=None` "latest" branch (which additionally sorts by
version) is exercised only by status endpoints outside the claims.  Both
of its exception handlers return `[]`, which `StoreView.err` captures. -/
/-- Python `s.split(c)[-1]`. -/
def lastToken (c : Char) (l : Str) : Str :=
  (l.reverse.takeWhile (fun x => !(x == c))).reverse

/-- The regex `search` of `/v(\d+)/` against a key (leftmost match). -/
def verMatchAt : Str → Option Nat
  | '/' :: 'v' :: rest =>
    if rest.takeWhile Char.isDigit = [] then none
    else if hasPref ['/'] (rest.drop (rest.takeWhile Char.isDigit).length) then
      some (digitsToNat (rest.takeWhile Char.isDigit))
    else none
  | _ => none

/-- Fuel-driven leftmost scan for `verMatchAt` (fuel bounds the length). -/
def firstVerMatchCore : Nat → Str → Option Nat
  | 0, _ => none
  | _, [] => none
  | fuel + 1, c :: rest =>
    match verMatchAt (c :: rest) with
    | some n => some n
    | none => firstVerMatchCore fuel rest

def firstVerMatch (l : Str) : Option Nat := firstVerMatchCore l.length l

/-- The fixed set of supported output formats. -/
def supportedExtensions : List Str :=
  [".FCStd".data, ".STL".data, ".STEP".data, ".IGES".data, ".OBJ".data, ".GLTF".data]

/-- One entry of the list `check_output_files` returns (the `size`,
`last_modified` and `download_url` fields, copied from S3 listing
metadata that is not modelled, are omitted). -/
structure OutputFile where
  filename : Str
  key : Str
  format : Str
  version : Option Nat
  deriving DecidableEq

/-- The per-object step of `check_output_files`' loop: skip
`metadata.json`, keep supported formats only. -/
def outputFileOf (e : Str × Body) : Option OutputFile :=
  if lastToken '/' e.1 = "metadata.json".data then none
  else if supportedExtensions.any
      (fun ext => hasSuf (upperS ext) (upperS (lastToken '/' e.1))) then
    some { filename := lastToken '/' e.1, key := e.1,
           format := '.' :: upperS (lastToken '.' (lastToken '/' e.1)),
           version := firstVerMatch e.1 }
  else none

/-- `check_output_files(project_name, version)`: list the version's output
folder and keep the supported artifacts; `ClientError` and any other
exception yield `[]`. -/
def checkOutputFiles (p : Str) (v : Nat) (view : StoreView) : List OutputFile :=
  match view with
  | .err => []
  | .ok s => (listPref (outputPref p v) s).filterMap outputFileOf

/-- `max_attempts = 20  # 10 minutes with 30-second intervals`. -/
def maxAttempts : Nat := 20

/-- The `while attempt < max_attempts` loop of `poll_for_output_files`,
written as recursion on `remaining = max_attempts - attempt`.  `env a` is
the store view the cycle with `attempt = a` observes (the 30 s sleeps are
abstracted away).  Returns the final value of `attempt` and, when output
files were found, the attempt that found them (the `break`). -/
def pollAux (p : Str) (v : Nat) (env : Nat → StoreView) : Nat → Nat → Nat × Option Nat
  | 0, attempt => (attempt, none)
  | remaining + 1, attempt =>
    if (checkOutputFiles p v (env (attempt + 1))).isEmpty then
      pollAux p v env remaining (attempt + 1)
    else (attempt + 1, some (attempt + 1))

/-- Outcome of one polling task: `completedAt = some a` when the cycle
`a` found artifacts and ran the completion block (metadata write, `.done`
marker, bookkeeping `completed`); `timedOut = true` when the
`attempt >= max_attempts` block after the loop ran (timeout marker with
`worker_id = "timeout"`, bookkeeping `timeout`). -/
structure PollOutcome where
  completedAt : Option Nat
  timedOut : Bool
  deriving DecidableEq

/-- `poll_for_output_files` for one `(job, version)`. -/
def pollRun (p : Str) (v : Nat) (env : Nat → StoreView) : PollOutcome :=
  { completedAt := (pollAux p v env maxAttempts 0).2,
    timedOut := decide (maxAttempts ≤ (pollAux p v env maxAttempts 0).1) }

/-! ## ErrorAnalyzer: `_parse_log_content`

Line-oriented keyword classification.  Each line is lower-cased and run
through an `elif` chain; `classifyLine` names the branch the chain takes
and `applyLine` performs that branch's mutations of the `error_info`
dict. -/
/-- The diagnosis dict.  `syn_errors` models the source's
`syntax_errors` list. -/
structure ErrorInfo where
  error_type : Str
  error_details : Str
  stack_trace : Str
  missing_modules : List Str
  syn_errors : List Str
  runtime_errors : List Str
  deriving DecidableEq

/-- The initial `error_info` dict. -/
def initErrorInfo : ErrorInfo :=
  { error_type := "unknown".data, error_details := [], stack_trace := [],
    missing_modules := [], syn_errors := [], runtime_errors := [] }

/-- The branches of the `elif` chain, in source order. -/
inductive LineClass where
  | importErr | guiErr | synErr | attrErr | runtimeErr | freecadErr | traceLine | plain
  deriving DecidableEq

/-- Which branch of the chain fires for a line. -/
def classifyLine (line : Str) : LineClass :=
  if hasSub "importerror".data (lowerS line)
      || hasSub "modulenotfounderror".data (lowerS line) then .importErr
  else if hasSub "importgui".data (lowerS line)
      || hasSub "gui".data (lowerS line) then .guiErr
  else if hasSub "syntaxerror".data (lowerS line) then .synErr
  else if hasSub "attributeerror".data (lowerS line) then .attrErr
  else if hasSub "error:".data (lowerS line)
      || hasSub "exception:".data (lowerS line) then .runtimeErr
  else if hasSub "freecad".data (lowerS line)
      && (hasSub "error".data (lowerS line)
          || hasSub "exception".data (lowerS line)) then .freecadErr
  else if hasSub "traceback".data (lowerS line) then .traceLine
  else .plain

/-- Module-name extraction inside the import-error branch. -/
def importMods (line : Str) : List Str :=
  if hasSub "cadquery".data (lowerS line) then ["cadquery".data]
  else if hasSub "cq".data (lowerS line) then ["cadquery".data]
  else if hasSub "importgui".data (lowerS line) then ["importgui".data]
  else []

/-- The traceback branch: starting at the traceback line, capture up to 10
lines, stopping at the first blank one, joined with newlines. -/
def stackCapture (line : Str) (rest : List Str) : Str :=
  List.intercalate ['\n'] (((line :: rest).take 10).takeWhile (fun l => !(stripS l).isEmpty))

/-- One line's effect on the diagnosis; `rest` is the tail of the log used
by the traceback branch's ten-line lookahead. -/
def applyLine (line : Str) (rest : List Str) (info : ErrorInfo) : ErrorInfo :=
  match classifyLine line with
  | .importErr =>
    { info with error_type := "import_error".data, error_details := stripS line,
                missing_modules := info.missing_modules ++ importMods line }
  | .guiErr =>
    { info with error_type := "gui_error".data, error_details := stripS line,
                missing_modules := info.missing_modules ++ ["importgui".data] }
  | .synErr =>
    { info with error_type := "syntax_error".data,
                syn_errors := info.syn_errors ++ [stripS line] }
  | .attrErr =>
    { info with error_type := "attribute_error".data,
                runtime_errors := info.runtime_errors ++ [stripS line] }
  | .runtimeErr =>
    { info with runtime_errors := info.runtime_errors ++ [stripS line] }
  | .freecadErr =>
    { info with error_type := "freecad_error".data,
                runtime_errors := info.runtime_errors ++ [stripS line] }
  | .traceLine => { info with stack_trace := stackCapture line rest }
  | .plain => info

/-- The `for i, line in enumerate(lines)` loop. -/
def parseLines : List Str → ErrorInfo → ErrorInfo
  | [], info => info
  | line :: rest, info => parseLines rest (applyLine line rest info)

/-- Python `log_content.split('\n')`. -/
def splitOnChar (c : Char) : Str → List Str
  | [] => [[]]
  | x :: rest =>
    if x = c then [] :: splitOnChar c rest
    else
      match splitOnChar c rest with
      | [] => [[x]]
      | h :: t => (x :: h) :: t

/-- `_parse_log_content`. -/
def parseLogContent (lc : Str) : ErrorInfo :=
  parseLines (splitOnChar '\n' lc) initErrorInfo

/-- The `error_type` value a line assigns, if its branch assigns one. -/
def typeSetBy (line : Str) : Option Str :=
  match classifyLine line with
  | .importErr => some "import_error".data
  | .guiErr => some "gui_error".data
  | .synErr => some "syntax_error".data
  | .attrErr => some "attribute_error".data
  | .freecadErr => some "freecad_error".data
  | _ => none

/-- The `error_details` value a line assigns, if its branch assigns one. -/
def detailsSetBy (line : Str) : Option Str :=
  match classifyLine line with
  | .importErr => some (stripS line)
  | .guiErr => some (stripS line)
  | _ => none

/-- A line's contribution to `missing_modules`. -/
def missingContrib (line : Str) : List Str :=
  match classifyLine line with
  | .importErr => importMods line
  | .guiErr => ["importgui".data]
  | _ => []

/-- A line's contribution to `syn_errors`. -/
def synContrib (line : Str) : List Str :=
  match classifyLine line with
  | .synErr => [stripS line]
  | _ => []

/-- A line's contribution to `runtime_errors`. -/
def runtimeContrib (line : Str) : List Str :=
  match classifyLine line with
  | .attrErr => [stripS line]
  | .runtimeErr => [stripS line]
  | .freecadErr => [stripS line]
  | _ => []

/-- The last `some` an assignment-tracking function takes over the lines. -/
def lastOpt (f : Str → Option Str) (lines : List Str) : Option Str :=
  lines.foldl (fun acc l => (f l).orElse (fun _ => acc)) none

/-! ## AutoFixEngine: the rule-based fallback generator

`_extract_dimensions_from_code` runs `re.findall(r'\b\d+\.?\d*\b', code)`
and converts the first three matches with `float`; the match semantics
(greedy with backtracking and `\b` word boundaries, ASCII inputs) are
embedded below. -/
/-- Python regex `\w` on ASCII text. -/
def isWordChar (c : Char) : Bool := c.isAlphanum || c == '_'

/-- `\b` after a match that ends in a digit: holds at end of string or
before a non-word character. -/
def boundaryAfterDigit : Str → Bool
  | [] => true
  | c :: _ => !isWordChar c

/-- Attempt `\d+\.?\d*\b` at the head of `l` (which starts with a digit
and has a word boundary before it); greedy with the backtracking Python's
engine performs when the final `\b` fails.  Returns the matched text and
the remaining input. -/
def numMatchAt (l : Str) : Option (Str × Str) :=
  if l.takeWhile Char.isDigit = [] then none
  else
    match l.drop (l.takeWhile Char.isDigit).length with
    | '.' :: r2 =>
      if r2.takeWhile Char.isDigit = [] then
        match r2 with
        | c :: _ =>
          if isWordChar c then some (l.takeWhile Char.isDigit ++ ['.'], r2)
          else some (l.takeWhile Char.isDigit, '.' :: r2)
        | [] => some (l.takeWhile Char.isDigit, '.' :: r2)
      else
        if boundaryAfterDigit (r2.drop (r2.takeWhile Char.isDigit).length) then
          some (l.takeWhile Char.isDigit ++ '.' :: r2.takeWhile Char.isDigit,
            r2.drop (r2.takeWhile Char.isDigit).length)
        else some (l.takeWhile Char.isDigit ++ ['.'], r2)
    | r1 =>
      if boundaryAfterDigit r1 then some (l.takeWhile Char.isDigit, r1) else none

/-- Left-to-right non-overlapping `findall` scan; `prevWord` tracks
whether the previous character was a word character (for the leading
`\b`); the fuel bounds the number of scan steps by the input length. -/
def findNumbersCore : Nat → Bool → Str → List Str
  | 0, _, _ => []
  | _, _, [] => []
  | fuel + 1, prevWord, c :: rest =>
    if c.isDigit && !prevWord then
      match numMatchAt (c :: rest) with
      | some m => m.1 :: findNumbersCore fuel (isWordChar (m.1.getLastD ' ')) m.2
      | none => findNumbersCore fuel (isWordChar c) rest
    else findNumbersCore fuel (isWordChar c) rest

/-- `re.findall(r'\b\d+\.?\d*\b', code)`. -/
def findNumbers (l : Str) : List Str := findNumbersCore l.length false l

/-- A Python number as it will be rendered into an f-string: either an
`int` (the hard-coded defaults) or `float(s)` of a matched literal. -/
inductive PyNum where
  | intVal (n : Nat)
  | floatVal (s : Str)
  deriving DecidableEq

/-- `repr(float(s))` for a literal matched by the number regex: strip
leading zeros of the integer part and trailing zeros of the fraction,
keeping at least one digit on each side of the point.  (This is the exact
CPython rendering for the short decimal literals these scripts contain;
literals long enough for binary rounding to show are out of scope.) -/
def pyFloatRepr (s : Str) : Str :=
  let ip := s.takeWhile Char.isDigit
  let frac := (s.drop ip.length).drop 1
  let ip' := if ip.dropWhile (fun c => c == '0') = [] then ['0']
             else ip.dropWhile (fun c => c == '0')
  let f' := (frac.reverse.dropWhile (fun c => c == '0')).reverse
  ip' ++ '.' :: (if f' = [] then ['0'] else f')

/-- f-string rendering of a dimension. -/
def renderPyNum : PyNum → Str
  | .intVal n => natChars n
  | .floatVal s => pyFloatRepr s

/-- `_extract_dimensions_from_code`: the first three numeric literals as
floats, or the `[10, 10, 10]` default when fewer than three are found
(`float` never raises on a string the number regex matched, so the
`except ValueError` branch is dead). -/
def extractDimensionsFromCode (code : Str) : List PyNum :=
  match findNumbers code with
  | n0 :: n1 :: n2 :: _ => [.floatVal n0, .floatVal n1, .floatVal n2]
  | _ => [.intVal 10, .intVal 10, .intVal 10]

/-- The export tail shared verbatim by the three templates (they differ
only in the bracketed object variable name spliced in here and in the
shape-creation header). -/
def exportBlock (objName : Str) : Str :=
  "\ndoc.recompute()\n\n# Multi-format export (HEADLESS)\noutput_dir = os.environ.get(\"FREECAD_OUTPUT\", \"/tmp\")\nbase_name = \"MyHeadlessModel\"\n\ntry:\n    # Save FreeCAD document\n    fcstd_path = os.path.join(output_dir, f\"{base_name}.fcstd\")\n    doc.saveAs(fcstd_path)\n    \n    # Export STL mesh\n    stl_path = os.path.join(output_dir, f\"{base_name}.stl\")\n    Mesh.export([".data
  ++ objName
  ++ "], stl_path)\n    \n    # Export OBJ mesh\n    obj_path = os.path.join(output_dir, f\"{base_name}.obj\")\n    Mesh.export([".data
  ++ objName
  ++ "], obj_path)\n    \n    # Export STEP\n    step_path = os.path.join(output_dir, f\"{base_name}.step\")\n    Part.export([".data
  ++ objName
  ++ "], step_path)\n    \n    # Export IGES\n    iges_path = os.path.join(output_dir, f\"{base_name}.iges\")\n    Part.export([".data
  ++ objName
  ++ "], iges_path)\n    \nexcept Exception as e:\n    print(f\"Export error: {e}\")".data

/-- `_generate_freecad_box` (`w, h, d = dimensions[:3] if len >= 3 else [10,10,10]`). -/
def generateFreecadBox (dims : List PyNum) : Str :=
  match dims with
  | w :: h :: d :: _ =>
    "import FreeCAD, Part, Mesh\nimport os\n\ndoc = FreeCAD.newDocument(\"MyDoc\")\ncube = doc.addObject(\"Part::Box\", \"Cube\")\ncube.Length = ".data
    ++ renderPyNum w ++ "\ncube.Width = ".data ++ renderPyNum h
    ++ "\ncube.Height = ".data ++ renderPyNum d ++ exportBlock "cube".data
  | _ =>
    "import FreeCAD, Part, Mesh\nimport os\n\ndoc = FreeCAD.newDocument(\"MyDoc\")\ncube = doc.addObject(\"Part::Box\", \"Cube\")\ncube.Length = ".data
    ++ renderPyNum (.intVal 10) ++ "\ncube.Width = ".data ++ renderPyNum (.intVal 10)
    ++ "\ncube.Height = ".data ++ renderPyNum (.intVal 10) ++ exportBlock "cube".data

/-- `_generate_freecad_cylinder` (`r, h = dimensions[:2] if len >= 2 else [5, 10]`). -/
def generateFreecadCylinder (dims : List PyNum) : Str :=
  match dims with
  | r :: h :: _ =>
    "import FreeCAD, Part, Mesh\nimport os\n\ndoc = FreeCAD.newDocument(\"MyDoc\")\ncylinder = doc.addObject(\"Part::Cylinder\", \"Cylinder\")\ncylinder.Radius = ".data
    ++ renderPyNum r ++ "\ncylinder.Height = ".data ++ renderPyNum h
    ++ exportBlock "cylinder".data
  | _ =>
    "import FreeCAD, Part, Mesh\nimport os\n\ndoc = FreeCAD.newDocument(\"MyDoc\")\ncylinder = doc.addObject(\"Part::Cylinder\", \"Cylinder\")\ncylinder.Radius = ".data
    ++ renderPyNum (.intVal 5) ++ "\ncylinder.Height = ".data ++ renderPyNum (.intVal 10)
    ++ exportBlock "cylinder".data

/-- `_generate_freecad_sphere` (`r = dimensions[0] if len >= 1 else 5`). -/
def generateFreecadSphere (dims : List PyNum) : Str :=
  match dims with
  | r :: _ =>
    "import FreeCAD, Part, Mesh\nimport os\n\ndoc = FreeCAD.newDocument(\"MyDoc\")\nsphere = doc.addObject(\"Part::Sphere\", \"Sphere\")\nsphere.Radius = ".data
    ++ renderPyNum r ++ exportBlock "sphere".data
  | [] =>
    "import FreeCAD, Part, Mesh\nimport os\n\ndoc = FreeCAD.newDocument(\"MyDoc\")\nsphere = doc.addObject(\"Part::Sphere\", \"Sphere\")\nsphere.Radius = ".data
    ++ renderPyNum (.intVal 5) ++ exportBlock "sphere".data

/-- `_generate_freecad_replacement`: shape inspection only happens when
the error message mentions CadQuery (`'cadquery' in error_message.lower()
or 'cq' in error_message.lower()`); otherwise, and when no shape pattern
is recognised, a default 10×10×10 box is produced. -/
def generateFreecadReplacement (originalCode errorMessage : Str) : Str :=
  if hasSub "cadquery".data (lowerS errorMessage)
      || hasSub "cq".data (lowerS errorMessage) then
    if hasSub ".box(".data originalCode
        || hasSub "box".data (lowerS originalCode) then
      generateFreecadBox (extractDimensionsFromCode originalCode)
    else if hasSub ".cylinder(".data originalCode
        || hasSub "cylinder".data (lowerS originalCode) then
      generateFreecadCylinder (extractDimensionsFromCode originalCode)
    else if hasSub ".sphere(".data originalCode
        || hasSub "sphere".data (lowerS originalCode) then
      generateFreecadSphere (extractDimensionsFromCode originalCode)
    else generateFreecadBox [.intVal 10, .intVal 10, .intVal 10]
  else generateFreecadBox [.intVal 10, .intVal 10, .intVal 10]

/-! ## RecoveryCoordinator: mark-failed / retry / replace / auto-fix -/
/-- `_clear_version_outputs`: list `output/{p}/v{v}/` and bulk-delete
every object found. -/
def clearVersionOutputs (p : Str) (v : Nat) (s : Store) : Store :=
  removePref (outputPref p v) s

/-- `mark_script_failed`: write/overwrite the ErrorRecord. -/
def markScriptFailed (p : Str) (v : Nat) (errorMessage : Str) (retryCount : Nat)
    (now : Nat) (s : Store) : Store :=
  putObj (errorKey p v)
    (Body.errJson
      { project_name := p, version := v, status := "FAILED".data,
        error_message := errorMessage, retry_count := retryCount, failed_at := now,
        max_retries := 3,
        next_retry_after := if retryCount < 3 then some now else none,
        retry_attempted_at := none }) s

/-- The dict `retry_failed_script` returns. -/
inductive RetryResult where
  | ok (retryCount : Nat)
  | budgetExhausted (retryCount : Nat)
  | noRecord
  | failed
  deriving DecidableEq

/-- `retry_failed_script`: read the ErrorRecord (absent record is a
`ClientError` on `get_object` → "No error record found"; a body that does
not decode as an ErrorRecord raises into the outer handler); refuse when
`retry_count >= 3`; otherwise delete the processed marker, then persist
the record with `retry_count + 1` and a fresh `retry_attempted_at`.
Output artifacts are not touched. -/
def retryFailedScript (p : Str) (v : Nat) (now : Nat) (s : Store) : RetryResult × Store :=
  match getObj (errorKey p v) s with
  | none => (.noRecord, s)
  | some (Body.errJson e) =>
    if 3 ≤ e.retry_count then (.budgetExhausted e.retry_count, s)
    else
      (.ok (e.retry_count + 1),
        putObj (errorKey p v)
          (Body.errJson { e with retry_count := e.retry_count + 1,
                                 retry_attempted_at := some now })
          (delObj (processedKey p v) s))
  | some _ => (.failed, s)

/-- `replace_failed_script`: read the ErrorRecord if present, overwrite
the script object in place, delete the processed marker, delete the
ErrorRecord when one was found, then clear the version's outputs. -/
def replaceFailedScript (p : Str) (v : Nat) (newCode : Str) (s : Store) : Bool × Store :=
  match getObj (errorKey p v) s with
  | some (Body.errJson _) =>
    (true,
      clearVersionOutputs p v
        (delObj (errorKey p v)
          (delObj (processedKey p v)
            (putObj (scriptKey p v) (Body.text newCode) s))))
  | none =>
    (true,
      clearVersionOutputs p v
        (delObj (processedKey p v)
          (putObj (scriptKey p v) (Body.text newCode) s)))
  | some _ => (false, s)

/-- `auto_fix_failed_script`: fetch the original script (failure when it
is absent; the script key only ever holds text), obtain the corrected
code — the text-generation collaborator's response `aiResult` is accepted
only when non-empty and containing the mandatory `import FreeCAD` marker,
otherwise the rule-based fallback runs on the original code and
`error_message or "AI fix failed"` — then overwrite the script, delete
the processed marker, clear the version's outputs, and write the
audit record under `logs/`.  (`_analyze_error_logs` only feeds the
collaborator's prompt and performs no writes, so it does not appear in
the state transition.) -/
def autoFixFailedScript (p : Str) (v : Nat) (errorMessage : Str)
    (aiResult : Option Str) (now : Nat) (s : Store) : Bool × Store :=
  match getObj (scriptKey p v) s with
  | some (Body.text originalCode) =>
    (true,
      putObj (autoFixLogKey p v now)
        (Body.fixJson
          { project_name := p, version := v, action := "auto_fix".data,
            original_error := errorMessage, fixed_at := now,
            fix_type := "cadquery_to_freecad".data,
            log_status := "script_replaced".data })
        (clearVersionOutputs p v
          (delObj (processedKey p v)
            (putObj (scriptKey p v)
              (Body.text
                (match aiResult with
                 | some fixedCode =>
                   if fixedCode ≠ [] && hasSub "import FreeCAD".data fixedCode then
                     fixedCode
                   else
                     generateFreecadReplacement originalCode
                       (if errorMessage = [] then "AI fix failed".data else errorMessage)
                 | none =>
                   generateFreecadReplacement originalCode
                     (if errorMessage = [] then "AI fix failed".data else errorMessage)))
              s))))
  | _ => (false, s)

/-! ## Concrete fixtures used by counterexamples and witnesses -/
def demoProj : Str := "demo".data

def demoErrRec : ErrorRecord :=
  { project_name := demoProj, version := 1, status := "FAILED".data,
    error_message := "boom".data, retry_count := 0, failed_at := 0, max_retries := 3,
    next_retry_after := some 0, retry_attempted_at := none }

/-- Marker present, one `.STL` artifact present, ErrorRecord with
`retry_count = 0`. -/
def demoStore : Store :=
  [(processedKey demoProj 1, Body.emptyBody),
   ("output/demo/v1/model.stl".data, Body.blob),
   (errorKey demoProj 1, Body.errJson demoErrRec)]

/-- Same version with its retry budget exhausted. -/
def demoStore3 : Store :=
  [(processedKey demoProj 1, Body.emptyBody),
   (errorKey demoProj 1, Body.errJson { demoErrRec with retry_count := 3 })]

def demoOutStore : Store := [("output/demo/v1/model.stl".data, Body.blob)]

/-- Artifacts first become visible exactly on the 20th poll cycle. -/
def envBoundary : Nat → StoreView :=
  fun t => if t < 20 then .ok [] else .ok demoOutStore

/-- Every store listing fails with `ClientError`. -/
def envAllErr : Nat → StoreView := fun _ => .err

/-- The version's output folder only ever contains its `metadata.json`. -/
def envMetaOnly : Nat → StoreView :=
  fun _ => .ok [("output/demo/v1/metadata.json".data, Body.text "{}".data)]

/-- Replace every failed listing by a successful empty one. -/
def errAsEmpty (env : Nat → StoreView) : Nat → StoreView :=
  fun t => match env t with | .err => .ok [] | .ok s => .ok s

def demoGuiLog : Str := "ModuleNotFoundError: No module named ImportGui".data

def demoMixedLog : Str :=
  "ImportError: No module named cadquery\nSyntaxError: invalid syntax".data

def demoCylSrc : Str := "result = cq.Workplane(\"XY\").cylinder(5, 20)".data

def demoCylSrc3 : Str := "result = cq.Workplane(\"XY\").cylinder(5, 20, 30)".data

def demoCylErr : Str := "No module named cadquery".data

/-! ## Proofs -/

theorem hasPref_append (p t : Str) : hasPref p (p ++ t) = true := by
  induction p with
  | nil => rfl
  | cons a as ih => simp [hasPref, ih]

theorem hasPref_eq_false_of_head {a b : Char} (h : a ≠ b) (l₁ l₂ : Str) :
    hasPref (a :: l₁) (b :: l₂) = false := by
  simp [hasPref, h]

/-- A successful prefix test exposes the suffix. -/
theorem exists_of_hasPref {p s : Str} (h : hasPref p s = true) : ∃ t, s = p ++ t := by
  induction p generalizing s with
  | nil => exact ⟨s, rfl⟩
  | cons a as ih =>
    cases s with
    | nil => simp [hasPref] at h
    | cons b bs =>
      simp only [hasPref, Bool.and_eq_true, beq_iff_eq] at h
      obtain ⟨rfl, h2⟩ := h
      obtain ⟨t, rfl⟩ := ih h2
      exact ⟨t, rfl⟩

theorem digitVal_digitChar {d : Nat} (h : d < 10) : digitVal (digitChar d) = d := by
  interval_cases d <;> rfl

theorem isDigit_digitChar {d : Nat} (h : d < 10) : (digitChar d).isDigit = true := by
  interval_cases d <;> rfl

theorem natCharsCore_digits {fuel n : Nat} (h : n ≤ fuel) :
    ∀ c ∈ natCharsCore fuel n, c.isDigit = true := by
  induction fuel generalizing n with
  | zero => simp [natCharsCore]
  | succ f ih =>
    cases n with
    | zero => simp [natCharsCore]
    | succ m =>
      intro c hc
      simp only [natCharsCore, List.mem_append, List.mem_singleton] at hc
      rcases hc with hc | rfl
      · exact ih (by omega : (m + 1) / 10 ≤ f) c hc
      · exact isDigit_digitChar (Nat.mod_lt _ (by norm_num))

theorem natChars_digits (n : Nat) : ∀ c ∈ natChars n, c.isDigit = true := by
  unfold natChars
  split
  · intro c hc; simp at hc; subst hc; rfl
  · exact natCharsCore_digits (Nat.le_succ n)

theorem foldl_digits_natCharsCore {fuel n : Nat} (h : n ≤ fuel) (a : Nat) :
    (natCharsCore fuel n).foldl (fun a c => a * 10 + digitVal c) a =
      a * 10 ^ (natCharsCore fuel n).length + n := by
  induction fuel generalizing n a with
  | zero =>
    have : n = 0 := Nat.le_zero.mp h
    subst this; simp [natCharsCore]
  | succ f ih =>
    cases n with
    | zero => simp [natCharsCore]
    | succ m =>
      have hdiv : (m + 1) / 10 ≤ f := by omega
      simp only [natCharsCore, List.foldl_append, List.foldl_cons, List.foldl_nil,
        List.length_append, List.length_cons, List.length_nil]
      rw [ih hdiv a, digitVal_digitChar (Nat.mod_lt _ (by norm_num))]
      rw [pow_succ]
      have := Nat.div_add_mod (m + 1) 10
      ring_nf
      omega

theorem digitsToNat_natChars (n : Nat) : digitsToNat (natChars n) = n := by
  unfold natChars digitsToNat
  split
  · subst_vars; rfl
  · rw [foldl_digits_natCharsCore (Nat.le_succ n)]; simp

theorem natChars_ne_nil (n : Nat) : natChars n ≠ [] := by
  unfold natChars
  split
  · simp
  · rename_i h
    cases n with
    | zero => exact absurd rfl h
    | succ m => simp [natCharsCore]

/-- `natChars` is injective: distinct versions render to distinct key fragments. -/
theorem natChars_inj {m n : Nat} (h : natChars m = natChars n) : m = n := by
  have := digitsToNat_natChars m
  rw [h, digitsToNat_natChars] at this
  exact this.symm

/-! ### Store lemmas -/
theorem getObj_putObj_self (k : Str) (b : Body) (s : Store) :
    getObj k (putObj k b s) = some b := by
  simp [getObj, putObj]

theorem getObj_removeKey_self (k : Str) (s : Store) : getObj k (removeKey k s) = none := by
  induction s with
  | nil => rfl
  | cons e t ih =>
    by_cases h : e.1 = k <;> simp [removeKey, getObj, h, ih]

theorem getObj_removeKey_ne {k k' : Str} (h : k ≠ k') (s : Store) :
    getObj k (removeKey k' s) = getObj k s := by
  induction s with
  | nil => rfl
  | cons e t ih =>
    by_cases he : e.1 = k'
    · have : e.1 ≠ k := by rw [he]; exact fun hc => h hc.symm
      simp [removeKey, getObj, he, this, ih, Ne.symm h]
    · by_cases hk : e.1 = k <;> simp [removeKey, getObj, he, hk, ih, h]

theorem getObj_putObj_ne {k k' : Str} (h : k' ≠ k) (b : Body) (s : Store) :
    getObj k (putObj k' b s) = getObj k s := by
  simp only [putObj, getObj, if_neg h]
  exact getObj_removeKey_ne (fun hc => h hc.symm) s

theorem getObj_delObj_self (k : Str) (s : Store) : getObj k (delObj k s) = none :=
  getObj_removeKey_self k s

theorem getObj_removePref_none {k pre : Str} {s : Store} (h : getObj k s = none) :
    getObj k (removePref pre s) = none := by
  induction s with
  | nil => rfl
  | cons e t ih =>
    by_cases he : e.1 = k
    · simp [getObj, he] at h
    · simp only [getObj, if_neg he] at h
      by_cases hp : hasPref pre e.1 <;> simp [removePref, getObj, hp, he, ih h]

theorem listPref_removePref_self (pre : Str) (s : Store) :
    listPref pre (removePref pre s) = [] := by
  induction s with
  | nil => rfl
  | cons e t ih =>
    by_cases h : hasPref pre e.1 <;> simp [removePref, listPref, h, ih]

theorem listPref_removeKey_empty {pre k : Str} {s : Store}
    (h : listPref pre s = []) : listPref pre (removeKey k s) = [] := by
  induction s with
  | nil => rfl
  | cons e t ih =>
    by_cases hp : hasPref pre e.1
    · simp [listPref, hp] at h
    · simp only [listPref, hp, Bool.false_eq_true, if_neg, if_false] at h
      by_cases hk : e.1 = k <;> simp [removeKey, listPref, hk, hp, ih h]

theorem listPref_putObj_not {pre k : Str} {s : Store} (h : hasPref pre k = false)
    (b : Body) (hs : listPref pre s = []) : listPref pre (putObj k b s) = [] := by
  simp only [putObj, listPref, h, Bool.false_eq_true, if_false]
  exact listPref_removeKey_empty hs

theorem listPref_append (pre : Str) (l1 l2 : Store) :
    listPref pre (l1 ++ l2) = listPref pre l1 ++ listPref pre l2 := by
  induction l1 with
  | nil => rfl
  | cons e t ih =>
    by_cases h : hasPref pre e.1 <;> simp [listPref, h, ih]

theorem listPref_eq_self {pre : Str} {l : Store} (h : ∀ e ∈ l, hasPref pre e.1 = true) :
    listPref pre l = l := by
  induction l with
  | nil => rfl
  | cons e t ih =>
    simp only [listPref, h e (List.mem_cons_self e t), if_true]
    exact congrArg _ (ih fun x hx => h x (List.mem_cons_of_mem e hx))

theorem listPref_eq_nil {pre : Str} {l : Store} (h : ∀ e ∈ l, hasPref pre e.1 = false) :
    listPref pre l = [] := by
  induction l with
  | nil => rfl
  | cons e t ih =>
    simp only [listPref, h e (List.mem_cons_self e t), Bool.false_eq_true, if_false]
    exact ih fun x hx => h x (List.mem_cons_of_mem e hx)

theorem removeKey_eq_self {k : Str} {l : Store} (h : ∀ e ∈ l, e.1 ≠ k) :
    removeKey k l = l := by
  induction l with
  | nil => rfl
  | cons e t ih =>
    simp only [removeKey, h e (List.mem_cons_self e t), if_false]
    exact congrArg _ (ih fun x hx => h x (List.mem_cons_of_mem e hx))

theorem key_ne_of_head {l1 l2 : Str} {a b : Char}
    (h1 : l1.head? = some a) (h2 : l2.head? = some b) (hab : a ≠ b) : l1 ≠ l2 := by
  intro h
  rw [h, h2] at h1
  exact hab (Option.some.inj h1).symm

theorem hasPref_false_of_head {pre l : Str} {a b : Char}
    (h1 : pre.head? = some a) (h2 : l.head? = some b) (hab : a ≠ b) :
    hasPref pre l = false := by
  cases pre with
  | nil => simp at h1
  | cons a' pt =>
    cases l with
    | nil => rfl
    | cons b' lt =>
      simp only [List.head?_cons, Option.some.injEq] at h1 h2
      subst h1; subst h2
      exact hasPref_eq_false_of_head hab pt lt

/-! ### First characters of the key namespaces (used to separate them) -/
theorem inputPref_head (p : Str) : (inputPref p).head? = some 'i' := rfl

theorem scriptKey_head (p : Str) (v : Nat) : (scriptKey p v).head? = some 'i' := rfl

theorem processedKey_head (p : Str) (v : Nat) : (processedKey p v).head? = some 'p' := rfl

theorem errorKey_head (p : Str) (v : Nat) : (errorKey p v).head? = some 'e' := rfl

theorem outputPref_head (p : Str) (v : Nat) : (outputPref p v).head? = some 'o' := rfl

theorem autoFixLogKey_head (p : Str) (v t : Nat) : (autoFixLogKey p v t).head? = some 'l' := rfl

theorem uvData : "_v".data = ['_', 'v'] := rfl

theorem pyData : ".py".data = ['.', 'p', 'y'] := rfl

theorem inputData : "input/".data = ['i', 'n', 'p', 'u', 't', '/'] := rfl

theorem slashData : "/".data = ['/'] := rfl

theorem takeWhile_append_not {q : Char → Bool} {l1 : Str} (h1 : ∀ c ∈ l1, q c = true)
    {a : Char} (ha : q a = false) (l2 : Str) :
    (l1 ++ a :: l2).takeWhile q = l1 := by
  induction l1 with
  | nil => simp [List.takeWhile, ha]
  | cons c t ih =>
    simp only [List.cons_append, List.takeWhile_cons, h1 c (List.mem_cons_self c t), if_true]
    exact congrArg _ (ih fun x hx => h1 x (List.mem_cons_of_mem c hx))

/-- The allocator's regex recovers the version from a key written by
`upload_script`. -/
theorem extractVersion_scriptKey (p : Str) (v : Nat) :
    extractVersion p (scriptKey p v) = some v := by
  have hrev : (scriptKey p v).reverse =
      'y' :: 'p' :: '.' ::
        ((natChars v).reverse ++
          'v' :: '_' :: (p.reverse ++ '/' :: (p.reverse ++ ['/', 't', 'u', 'p', 'n', 'i']))) := by
    simp [scriptKey, inputPref, uvData, pyData, inputData, slashData, List.append_assoc]
  have hdig : ∀ c ∈ (natChars v).reverse, c.isDigit = true := by
    intro c hc
    exact natChars_digits v c (List.mem_reverse.mp hc)
  unfold extractVersion
  rw [hrev]
  rw [if_pos (by simp [hasPref])]
  simp only [List.drop_succ_cons, List.drop_zero]
  rw [takeWhile_append_not hdig (by decide) _]
  rw [if_neg (by simp [natChars_ne_nil v]), List.drop_left]
  rw [if_pos (by simp [hasPref, hasPref_append])]
  rw [List.reverse_reverse, digitsToNat_natChars]

theorem scriptKey_inj {p : Str} {i j : Nat} (h : scriptKey p i = scriptKey p j) : i = j := by
  have h1 := extractVersion_scriptKey p i
  rw [h, extractVersion_scriptKey] at h1
  exact (Option.some.inj h1).symm

theorem hasPref_inputPref_scriptKey (p : Str) (v : Nat) :
    hasPref (inputPref p) (scriptKey p v) = true := by
  have : scriptKey p v =
      inputPref p ++ (p ++ ("_v".data ++ (natChars v ++ ".py".data))) := by
    simp only [scriptKey, List.append_assoc]
  rw [this]
  exact hasPref_append _ _

theorem foldl_max_le {l : List Nat} {a : Nat} (h : ∀ x ∈ l, x ≤ a) :
    l.foldl Nat.max a = a := by
  induction l generalizing a with
  | nil => rfl
  | cons x t ih =>
    simp only [List.foldl_cons]
    have hx : x ≤ a := h x (List.mem_cons_self x t)
    have hmax : Nat.max a x = a :=
      Nat.le_antisymm (Nat.max_le.mpr ⟨Nat.le_refl a, hx⟩) (Nat.le_max_left a x)
    rw [hmax]
    exact ih fun y hy => h y (List.mem_cons_of_mem x hy)

theorem scriptEntries_succ (p code : Str) (k : Nat) :
    scriptEntries p code (k + 1) =
      (scriptKey p (k + 1), Body.text code) :: scriptEntries p code k := by
  simp [scriptEntries, List.range_succ]

theorem getNextVersion_scriptEntries (p code : Str) {s : Store} (hs : freshFor p s)
    (k : Nat) : getNextVersion p (.ok (scriptEntries p code k ++ s)) = k + 1 := by
  have hlist : listPref (inputPref p) (scriptEntries p code k ++ s) =
      scriptEntries p code k := by
    rw [listPref_append, listPref_eq_nil hs, List.append_nil]
    apply listPref_eq_self
    intro e he
    simp only [scriptEntries, List.mem_map] at he
    obtain ⟨i, _, rfl⟩ := he
    exact hasPref_inputPref_scriptKey p (i + 1)
  cases k with
  | zero =>
    have h0 : scriptEntries p code 0 = [] := rfl
    rw [h0, List.nil_append] at hlist
    rw [h0, List.nil_append]
    show (if listPref (inputPref p) s = [] then 1
      else if (listPref (inputPref p) s).filterMap (fun e => extractVersion p e.1) = [] then 1
      else ((listPref (inputPref p) s).filterMap
        (fun e => extractVersion p e.1)).foldl Nat.max 0 + 1) = 0 + 1
    rw [if_pos hlist]
  | succ m =>
    have hvers : (scriptEntries p code (m + 1)).filterMap (fun e => extractVersion p e.1) =
        (List.range (m + 1)).reverse.map (fun i => i + 1) := by
      simp only [scriptEntries, List.filterMap_map]
      have hcongr : ∀ i ∈ (List.range (m + 1)).reverse,
          ((fun e : Str × Body => extractVersion p e.1) ∘
            fun i => (scriptKey p (i + 1), Body.text code)) i = some (i + 1) := by
        intro i _
        exact extractVersion_scriptKey p (i + 1)
      rw [List.filterMap_congr hcongr,
        show (fun i : Nat => some (i + 1)) = some ∘ (fun i => i + 1) from rfl,
        List.filterMap_eq_map]
    have hrest : (List.range (m + 1)).reverse.map (fun i => i + 1) =
        (m + 1) :: (List.range m).reverse.map (fun i => i + 1) := by
      rw [List.range_succ, List.reverse_append]
      simp
    have hmax : ((List.range (m + 1)).reverse.map (fun i => i + 1)).foldl Nat.max 0 = m + 1 := by
      rw [hrest]
      simp only [List.foldl_cons]
      have h0 : Nat.max 0 (m + 1) = m + 1 :=
        Nat.le_antisymm (Nat.max_le.mpr ⟨Nat.zero_le _, Nat.le_refl _⟩) (Nat.le_max_right _ _)
      rw [h0]
      apply foldl_max_le
      intro y hy
      simp only [List.mem_map, List.mem_reverse, List.mem_range] at hy
      obtain ⟨i, hi, rfl⟩ := hy
      omega
    have hne : scriptEntries p code (m + 1) ≠ [] := by
      rw [scriptEntries_succ]; simp
    have hne2 : (List.range (m + 1)).reverse.map (fun i => i + 1) ≠ [] := by
      rw [hrest]; simp
    simp only [getNextVersion, hlist, hvers]
    rw [if_neg hne, if_neg hne2, hmax]

/-- Invariant of `k` sequential submissions on a fresh job: the store has
gained exactly the script objects for versions `1..k` (newest first) and
the allocator handed out `1, 2, ..., k` in order. -/
theorem submitN_spec (p code : Str) {s : Store} (hs : freshFor p s) :
    ∀ k, (submitN p code s k).1 = scriptEntries p code k ++ s
      ∧ (submitN p code s k).2 = (List.range k).map (fun i => i + 1) := by
  intro k
  induction k with
  | zero => exact ⟨rfl, rfl⟩
  | succ m ih =>
    obtain ⟨ih1, ih2⟩ := ih
    have hnext : getNextVersion p (.ok (scriptEntries p code m ++ s)) = m + 1 :=
      getNextVersion_scriptEntries p code hs m
    have hkeys : ∀ e ∈ scriptEntries p code m ++ s, e.1 ≠ scriptKey p (m + 1) := by
      intro e he
      rcases List.mem_append.mp he with hm | hm
      · simp only [scriptEntries, List.mem_map] at hm
        obtain ⟨i, hi, rfl⟩ := hm
        simp only [List.mem_reverse, List.mem_range] at hi
        intro hc
        have := scriptKey_inj hc
        omega
      · intro hc
        have h1 := hs e hm
        rw [hc, hasPref_inputPref_scriptKey] at h1
        exact Bool.true_eq_false.mp h1
    constructor
    · show (uploadScript code p (.ok (submitN p code s m).1) (submitN p code s m).1).2 =
        scriptEntries p code (m + 1) ++ s
      simp only [uploadScript, ih1, hnext, putObj]
      rw [removeKey_eq_self hkeys, scriptEntries_succ]
      rfl
    · show (submitN p code s m).2 ++ [(uploadScript code p (.ok (submitN p code s m).1)
        (submitN p code s m).1).1] = (List.range (m + 1)).map (fun i => i + 1)
      simp only [uploadScript, ih1, hnext, ih2]
      rw [List.range_succ, List.map_append]
      simp

theorem pollAux_all_empty {p : Str} {v : Nat} {env : Nat → StoreView}
    (h : ∀ t, checkOutputFiles p v (env t) = []) :
    ∀ r a, pollAux p v env r a = (a + r, none) := by
  intro r
  induction r with
  | zero => intro a; rfl
  | succ m ih =>
    intro a
    simp only [pollAux, h (a + 1), List.isEmpty_nil, if_true]
    rw [ih (a + 1)]
    exact congrArg (fun x => (x, (none : Option Nat))) (by omega)

theorem applyLine_error_type (line : Str) (rest : List Str) (info : ErrorInfo) :
    (applyLine line rest info).error_type = (typeSetBy line).getD info.error_type := by
  unfold applyLine typeSetBy
  cases classifyLine line <;> rfl

theorem applyLine_error_details (line : Str) (rest : List Str) (info : ErrorInfo) :
    (applyLine line rest info).error_details = (detailsSetBy line).getD info.error_details := by
  unfold applyLine detailsSetBy
  cases classifyLine line <;> rfl

theorem applyLine_missing (line : Str) (rest : List Str) (info : ErrorInfo) :
    (applyLine line rest info).missing_modules =
      info.missing_modules ++ missingContrib line := by
  unfold applyLine missingContrib
  cases classifyLine line <;> simp

theorem applyLine_syn (line : Str) (rest : List Str) (info : ErrorInfo) :
    (applyLine line rest info).syn_errors = info.syn_errors ++ synContrib line := by
  unfold applyLine synContrib
  cases classifyLine line <;> simp

theorem applyLine_runtime (line : Str) (rest : List Str) (info : ErrorInfo) :
    (applyLine line rest info).runtime_errors =
      info.runtime_errors ++ runtimeContrib line := by
  unfold applyLine runtimeContrib
  cases classifyLine line <;> simp

theorem foldl_lastOpt (f : Str → Option Str) (t : List Str) :
    ∀ (o : Option Str) (d : Str),
      (t.foldl (fun acc l => (f l).orElse (fun _ => acc)) o).getD d =
        (lastOpt f t).getD (o.getD d) := by
  induction t with
  | nil => intro o d; rfl
  | cons l t ih =>
    intro o d
    simp only [List.foldl_cons, lastOpt]
    rw [ih ((f l).orElse (fun _ => o)), ih ((f l).orElse (fun _ => none))]
    cases f l <;> rfl

theorem parseLines_error_type (lines : List Str) (info : ErrorInfo) :
    (parseLines lines info).error_type = (lastOpt typeSetBy lines).getD info.error_type := by
  induction lines generalizing info with
  | nil => rfl
  | cons line rest ih =>
    simp only [parseLines, ih, applyLine_error_type, lastOpt, List.foldl_cons]
    rw [foldl_lastOpt typeSetBy rest ((typeSetBy line).orElse (fun _ => none))]
    cases typeSetBy line <;> rfl

theorem parseLines_error_details (lines : List Str) (info : ErrorInfo) :
    (parseLines lines info).error_details =
      (lastOpt detailsSetBy lines).getD info.error_details := by
  induction lines generalizing info with
  | nil => rfl
  | cons line rest ih =>
    simp only [parseLines, ih, applyLine_error_details, lastOpt, List.foldl_cons]
    rw [foldl_lastOpt detailsSetBy rest ((detailsSetBy line).orElse (fun _ => none))]
    cases detailsSetBy line <;> rfl

theorem parseLines_missing (lines : List Str) (info : ErrorInfo) :
    (parseLines lines info).missing_modules =
      info.missing_modules ++ (lines.map missingContrib).flatten := by
  induction lines generalizing info with
  | nil => simp [parseLines]
  | cons line rest ih =>
    simp only [parseLines, ih, applyLine_missing, List.map_cons, List.flatten_cons,
      List.append_assoc]

theorem parseLines_syn (lines : List Str) (info : ErrorInfo) :
    (parseLines lines info).syn_errors =
      info.syn_errors ++ (lines.map synContrib).flatten := by
  induction lines generalizing info with
  | nil => simp [parseLines]
  | cons line rest ih =>
    simp only [parseLines, ih, applyLine_syn, List.map_cons, List.flatten_cons,
      List.append_assoc]

theorem parseLines_runtime (lines : List Str) (info : ErrorInfo) :
    (parseLines lines info).runtime_errors =
      info.runtime_errors ++ (lines.map runtimeContrib).flatten := by
  induction lines generalizing info with
  | nil => simp [parseLines]
  | cons line rest ih =>
    simp only [parseLines, ih, applyLine_runtime, List.map_cons, List.flatten_cons,
      List.append_assoc]

theorem lastOpt_isSome {f : Str → Option Str} {lines : List Str} {l : Str}
    (hl : l ∈ lines) (hf : (f l).isSome) : (lastOpt f lines).isSome := by
  have step : ∀ (t : List Str) (o : Option Str),
      ((∃ x ∈ t, (f x).isSome) ∨ o.isSome) →
      (t.foldl (fun acc l => (f l).orElse (fun _ => acc)) o).isSome := by
    intro t
    induction t with
    | nil =>
      intro o ho
      rcases ho with ⟨x, hx, _⟩ | ho
      · simp at hx
      · exact ho
    | cons x r ih =>
      intro o ho
      simp only [List.foldl_cons]
      apply ih
      rcases ho with ⟨y, hy, hfy⟩ | ho
      · rcases List.mem_cons.mp hy with rfl | hm
        · right
          cases hx : f y with
          | some v => simp [Option.orElse, hx]
          | none => rw [hx] at hfy; simp at hfy
        · left; exact ⟨y, hm, hfy⟩
      · right
        cases hx : f x with
        | some v => simp [Option.orElse, hx]
        | none => simpa [Option.orElse, hx] using ho
  exact step lines none (Or.inl ⟨l, hl, hf⟩)

theorem lastOpt_bounded {f : Str → Option Str} {lines : List Str} {t : Str}
    (h : ∀ l ∈ lines, f l = none ∨ f l = some t) :
    lastOpt f lines = none ∨ lastOpt f lines = some t := by
  have step : ∀ (rest : List Str) (o : Option Str),
      (∀ l ∈ rest, f l = none ∨ f l = some t) → (o = none ∨ o = some t) →
      (rest.foldl (fun acc l => (f l).orElse (fun _ => acc)) o) = none ∨
      (rest.foldl (fun acc l => (f l).orElse (fun _ => acc)) o) = some t := by
    intro rest
    induction rest with
    | nil => intro o _ ho; exact ho
    | cons x r ih =>
      intro o hx ho
      simp only [List.foldl_cons]
      apply ih _ (fun l hl => hx l (List.mem_cons_of_mem x hl))
      rcases hx x (List.mem_cons_self x r) with hfx | hfx <;>
        cases ho with
        | inl h' => subst h'; simp [hfx, Option.orElse]
        | inr h' => subst h'; simp [hfx, Option.orElse]
  exact step lines none h (Or.inl rfl)

theorem getObj_delObj_ne {k k' : Str} (h : k ≠ k') (s : Store) :
    getObj k (delObj k' s) = getObj k s :=
  getObj_removeKey_ne h s

/-! ## Claim theorems -/
/-- C10: when the listing of the job's script namespace fails,
`get_next_version` swallows the store error and returns `1`, so the
submission is allocated version 1 and its write lands on — and
overwrites — the `input/{p}/{p}_v1.py` key, whatever it held before. -/
theorem c10_store_fault (p code : Str) (s : Store) :
    getNextVersion p StoreView.err = 1
  ∧ (uploadScript code p StoreView.err s).1 = 1
  ∧ getObj (scriptKey p 1) (uploadScript code p StoreView.err s).2 =
      some (Body.text code) :=
  ⟨rfl, rfl, getObj_putObj_self _ _ _⟩

/-- C8: starting from a store with nothing under the job's script
namespace, `N` sequential submissions are allocated exactly the strictly
increasing versions `1, 2, ..., N` (`next_version` returning
`max(existing _v<N>.py suffixes) + 1`, or `1` when none exist). -/
theorem c8_sequential_versions (p code : Str) (s : Store) (N : Nat)
    (hfresh : ∀ e ∈ s, hasPref (inputPref p) e.1 = false) :
    (submitN p code s N).2 = (List.range N).map (fun i => i + 1) :=
  (submitN_spec p code hfresh N).2

/-- Witness for C8 at a fresh job and `N = 3`. -/
theorem c8_witness : (submitN demoProj "print(1)".data [] 3).2 = [1, 2, 3] := by
  rw [c8_sequential_versions demoProj "print(1)".data [] 3
    (fun e he => absurd he (List.not_mem_nil e))]
  rfl

/-- C2: with the stored ErrorRecord at `retry_count = 3`, `retry` fails
with the budget-exhausted error and the whole store — in particular the
ErrorRecord and the ProcessedMarker — is byte-for-byte unchanged; with
`retry_count < 3`, `retry` succeeds, the ProcessedMarker is deleted, and
the record is persisted with `retry_count + 1` and a fresh
`retry_attempted_at`. -/
theorem c2_retry_budget (p : Str) (v now : Nat) (s : Store) (e : ErrorRecord)
    (hrec : getObj (errorKey p v) s = some (Body.errJson e)) :
    (e.retry_count = 3 → retryFailedScript p v now s = (RetryResult.budgetExhausted 3, s))
  ∧ (e.retry_count < 3 →
      (retryFailedScript p v now s).1 = RetryResult.ok (e.retry_count + 1)
      ∧ getObj (processedKey p v) (retryFailedScript p v now s).2 = none
      ∧ getObj (errorKey p v) (retryFailedScript p v now s).2 =
          some (Body.errJson { e with retry_count := e.retry_count + 1,
                                      retry_attempted_at := some now })) := by
  have hne : errorKey p v ≠ processedKey p v :=
    key_ne_of_head (errorKey_head p v) (processedKey_head p v) (by decide)
  constructor
  · intro h3
    simp only [retryFailedScript, hrec]
    rw [if_pos (by omega), h3]
  · intro hlt
    simp only [retryFailedScript, hrec]
    rw [if_neg (by omega)]
    refine ⟨rfl, ?_, ?_⟩
    · rw [getObj_putObj_ne hne, getObj_delObj_self]
    · exact getObj_putObj_self _ _ _

/-- Witness for C2: a concrete exhausted record is rejected untouched and
a concrete fresh record is retried with the marker deleted. -/
theorem c2_witness :
    retryFailedScript demoProj 1 7 demoStore3 =
      (RetryResult.budgetExhausted 3, demoStore3)
  ∧ (retryFailedScript demoProj 1 7 demoStore).1 = RetryResult.ok 1
  ∧ getObj (processedKey demoProj 1) (retryFailedScript demoProj 1 7 demoStore).2 =
      none := by
  have h3 := c2_retry_budget demoProj 1 7 demoStore3
    { demoErrRec with retry_count := 3 } (by decide)
  have h0 := c2_retry_budget demoProj 1 7 demoStore demoErrRec (by decide)
  exact ⟨h3.1 rfl, (h0.2 (by decide)).1, (h0.2 (by decide)).2.1⟩

/-- C1 counterexample: on a store holding a marker, an output artifact
and a fresh ErrorRecord, `retry` succeeds yet the version's
OutputArtifactSet is NOT empty afterwards — the artifact survives, so the
claimed invariant fails for `retry`. -/
theorem c1_counterexample :
    (retryFailedScript demoProj 1 5 demoStore).1 = RetryResult.ok 1
  ∧ listPref (outputPref demoProj 1) (retryFailedScript demoProj 1 5 demoStore).2 =
      [("output/demo/v1/model.stl".data, Body.blob)] := by decide

/-- C1 amended: after a successful `replace` or `auto_fix` the
ProcessedMarker is absent and the OutputArtifactSet is empty (from any
starting store, hence also after running the operation twice); a
successful `retry` deletes the ProcessedMarker but leaves the
OutputArtifactSet untouched. -/
theorem c1_amended (p : Str) (v now : Nat) (s : Store) (newCode errMsg : Str)
    (aiResult : Option Str) :
    ((replaceFailedScript p v newCode s).1 = true →
      getObj (processedKey p v) (replaceFailedScript p v newCode s).2 = none
      ∧ listPref (outputPref p v) (replaceFailedScript p v newCode s).2 = [])
  ∧ ((autoFixFailedScript p v errMsg aiResult now s).1 = true →
      getObj (processedKey p v) (autoFixFailedScript p v errMsg aiResult now s).2 = none
      ∧ listPref (outputPref p v) (autoFixFailedScript p v errMsg aiResult now s).2 = [])
  ∧ (∀ n, (retryFailedScript p v now s).1 = RetryResult.ok n →
      getObj (processedKey p v) (retryFailedScript p v now s).2 = none) := by
  have hne1 : errorKey p v ≠ processedKey p v :=
    key_ne_of_head (errorKey_head p v) (processedKey_head p v) (by decide)
  have hne2 : autoFixLogKey p v now ≠ processedKey p v :=
    key_ne_of_head (autoFixLogKey_head p v now) (processedKey_head p v) (by decide)
  have hnp : hasPref (outputPref p v) (autoFixLogKey p v now) = false :=
    hasPref_false_of_head (outputPref_head p v) (autoFixLogKey_head p v now) (by decide)
  refine ⟨?_, ?_, ?_⟩
  · cases hget : getObj (errorKey p v) s with
    | none =>
      intro _
      simp only [replaceFailedScript, hget, clearVersionOutputs]
      exact ⟨getObj_removePref_none (getObj_delObj_self _ _),
        listPref_removePref_self _ _⟩
    | some b =>
      cases b with
      | errJson e =>
        intro _
        simp only [replaceFailedScript, hget, clearVersionOutputs]
        refine ⟨getObj_removePref_none ?_, listPref_removePref_self _ _⟩
        rw [getObj_delObj_ne (Ne.symm hne1), getObj_delObj_self]
      | text t => intro h; simp [replaceFailedScript, hget] at h
      | emptyBody => intro h; simp [replaceFailedScript, hget] at h
      | fixJson l => intro h; simp [replaceFailedScript, hget] at h
      | blob => intro h; simp [replaceFailedScript, hget] at h
  · cases hget : getObj (scriptKey p v) s with
    | none => intro h; simp [autoFixFailedScript, hget] at h
    | some b =>
      cases b with
      | text orig =>
        intro _
        simp only [autoFixFailedScript, hget, clearVersionOutputs]
        constructor
        · rw [getObj_putObj_ne hne2]
          exact getObj_removePref_none (getObj_delObj_self _ _)
        · exact listPref_putObj_not hnp _ (listPref_removePref_self _ _)
      | errJson e => intro h; simp [autoFixFailedScript, hget] at h
      | emptyBody => intro h; simp [autoFixFailedScript, hget] at h
      | fixJson l => intro h; simp [autoFixFailedScript, hget] at h
      | blob => intro h; simp [autoFixFailedScript, hget] at h
  · intro n h
    cases hget : getObj (errorKey p v) s with
    | none => simp [retryFailedScript, hget] at h
    | some b =>
      cases b with
      | errJson e =>
        by_cases hb : 3 ≤ e.retry_count
        · simp [retryFailedScript, hget, hb] at h
        · simp only [retryFailedScript, hget, if_neg hb]
          rw [getObj_putObj_ne hne1, getObj_delObj_self]
      | text t => simp [retryFailedScript, hget] at h
      | emptyBody => simp [retryFailedScript, hget] at h
      | fixJson l => simp [retryFailedScript, hget] at h
      | blob => simp [retryFailedScript, hget] at h

/-- Witness for C1 (amended): on the concrete store, `replace` leaves the
marker absent and the outputs empty, and a successful `retry` leaves the
marker absent. -/
theorem c1_witness :
    getObj (processedKey demoProj 1)
      (replaceFailedScript demoProj 1 "print(2)".data demoStore).2 = none
  ∧ listPref (outputPref demoProj 1)
      (replaceFailedScript demoProj 1 "print(2)".data demoStore).2 = []
  ∧ getObj (processedKey demoProj 1) (retryFailedScript demoProj 1 5 demoStore).2 =
      none := by
  have h := c1_amended demoProj 1 5 demoStore "print(2)".data "boom".data none
  exact ⟨(h.1 (by decide)).1, (h.1 (by decide)).2, h.2.2 1 (by decide)⟩

/-- C3: evaluation of the polling task at the boundary input — the store
shows no artifacts on cycles 1–19 and an artifact on cycle 20.  The run
completes at attempt 20 (the completion block runs and records
COMPLETED), yet because the loop exits with `attempt = 20` the
`attempt >= max_attempts` block ALSO runs and records TIMED_OUT: the two
terminal outcomes are not mutually exclusive at this input. -/
theorem c3_boundary_bug :
    pollRun demoProj 1 envBoundary = { completedAt := some 20, timedOut := true } := by
  decide

/-- C4 counterexample: when every one of the 20 store checks fails with a
store error, the run still times out — the 20 error cycles consumed the
whole attempt budget, although not a single successful-but-empty check
occurred.  Under the claim (error cycles not counted), this run could not
have timed out. -/
theorem c4_counterexample :
    pollRun demoProj 1 envAllErr = { completedAt := none, timedOut := true } := by
  decide

/-- C4 amended: a store error inside a poll cycle is caught inside
`check_output_files` and surfaces as an empty listing, so the cycle is
processed exactly like a successful check that found no artifacts — it
consumes an attempt.  Formally, a run is unchanged when every erroring
listing is replaced by a successful empty one. -/
theorem c4_amended (p : Str) (v : Nat) (env : Nat → StoreView) :
    pollRun p v env = pollRun p v (errAsEmpty env) := by
  have hstep : ∀ t, checkOutputFiles p v (env t) = checkOutputFiles p v (errAsEmpty env t) := by
    intro t
    unfold errAsEmpty
    cases env t with
    | err => rfl
    | ok s => rfl
  have haux : ∀ r a, pollAux p v env r a = pollAux p v (errAsEmpty env) r a := by
    intro r
    induction r with
    | zero => intro a; rfl
    | succ m ih =>
      intro a
      simp only [pollAux, hstep (a + 1), ih (a + 1)]
  unfold pollRun
  rw [haux]

/-- C9: the output-artifact listing only returns files that are not the
`metadata.json` object and whose extension case-insensitively matches one
of the six supported formats; consequently a version whose output folder
only ever contains `metadata.json` can never drive the polling task to
completion. -/
theorem c9_supported_formats (p : Str) (v : Nat) (view : StoreView) :
    (∀ f ∈ checkOutputFiles p v view,
      f.filename ≠ "metadata.json".data
      ∧ supportedExtensions.any
          (fun ext => hasSuf (upperS ext) (upperS f.filename)) = true)
  ∧ (∀ env : Nat → StoreView,
      (∀ t s', env t = .ok s' →
        ∀ e ∈ listPref (outputPref p v) s', lastToken '/' e.1 = "metadata.json".data) →
      (pollRun p v env).completedAt = none) := by
  constructor
  · intro f hf
    cases view with
    | err => simp [checkOutputFiles] at hf
    | ok s =>
      simp only [checkOutputFiles] at hf
      obtain ⟨e, he, hout⟩ := List.mem_filterMap.mp hf
      unfold outputFileOf at hout
      by_cases h1 : lastToken '/' e.1 = "metadata.json".data
      · rw [if_pos h1] at hout
        exact absurd hout (by simp)
      · rw [if_neg h1] at hout
        by_cases h2 : supportedExtensions.any
            (fun ext => hasSuf (upperS ext) (upperS (lastToken '/' e.1))) = true
        · rw [if_pos h2] at hout
          cases Option.some.inj hout
          exact ⟨h1, h2⟩
        · rw [if_neg h2] at hout
          exact absurd hout (by simp)
  · intro env henv
    have hall : ∀ t, checkOutputFiles p v (env t) = [] := by
      intro t
      cases ht : env t with
      | err => rfl
      | ok s' =>
        simp only [checkOutputFiles]
        rw [List.filterMap_eq_nil_iff]
        intro e he
        unfold outputFileOf
        rw [if_pos (henv t s' ht e he)]
    show (pollAux p v env maxAttempts 0).2 = none
    rw [pollAux_all_empty hall maxAttempts 0]

/-- Witness for C9: the concrete `.STL` listing entry satisfies the
format conditions, and a run whose store only ever shows the version's
`metadata.json` never completes. -/
theorem c9_witness :
    ({ filename := "model.stl".data, key := "output/demo/v1/model.stl".data,
       format := ".STL".data, version := some 1 } : OutputFile).filename ≠
        "metadata.json".data
  ∧ (pollRun demoProj 1 envMetaOnly).completedAt = none := by
  constructor
  · exact ((c9_supported_formats demoProj 1 (.ok demoOutStore)).1 _ (by decide)).1
  · apply (c9_supported_formats demoProj 1 StoreView.err).2
    intro t s' h e he
    have hs' : s' = [("output/demo/v1/metadata.json".data, Body.text "{}".data)] := by
      have : StoreView.ok [("output/demo/v1/metadata.json".data, Body.text "{}".data)] =
          StoreView.ok s' := h
      cases this
      rfl
    subst hs'
    rw [show listPref (outputPref demoProj 1)
        [("output/demo/v1/metadata.json".data, Body.text "{}".data)] =
        [("output/demo/v1/metadata.json".data, Body.text "{}".data)] from by decide] at he
    rcases List.mem_singleton.mp he with rfl
    decide

/-- C5 counterexample: on a log whose single line is a
module-not-found line referencing `ImportGui`, the parser classifies
`error_type = "import_error"` — the import/module-not-found branch has
priority over the GUI branch — not `"gui_error"` as claimed. -/
theorem c5_counterexample :
    (parseLogContent demoGuiLog).error_type = "import_error".data
  ∧ "import_error".data ≠ "gui_error".data := by decide

/-- C5 amended: a module-not-found line referencing `ImportGui` (and not
also mentioning `cadquery` or `cq`, which the module-extraction chain
checks first) contributes `"importgui"` to `missing_modules`, and the
resulting `error_type` is `"import_error"` — not `"gui_error"` — whenever
no other branch assignment follows (scalar fields keep the last
assignment). -/
theorem c5_amended (lc line : Str)
    (hmem : line ∈ splitOnChar '\n' lc)
    (hmnf : hasSub "modulenotfounderror".data (lowerS line) = true)
    (hgui : hasSub "importgui".data (lowerS line) = true)
    (hncad : hasSub "cadquery".data (lowerS line) = false)
    (hncq : hasSub "cq".data (lowerS line) = false) :
    "importgui".data ∈ (parseLogContent lc).missing_modules
  ∧ ((∀ l ∈ splitOnChar '\n' lc,
        typeSetBy l = none ∨ typeSetBy l = some "import_error".data) →
      (parseLogContent lc).error_type = "import_error".data) := by
  have hclass : classifyLine line = LineClass.importErr := by
    unfold classifyLine
    rw [hmnf]
    simp
  have hmods : missingContrib line = ["importgui".data] := by
    unfold missingContrib
    rw [hclass]
    unfold importMods
    rw [hncad, hncq, hgui]
    simp
  have htype : typeSetBy line = some "import_error".data := by
    unfold typeSetBy
    rw [hclass]
  constructor
  · unfold parseLogContent
    rw [parseLines_missing]
    apply List.mem_append_right
    apply List.mem_flatten.mpr
    exact ⟨missingContrib line, List.mem_map_of_mem missingContrib hmem,
      by rw [hmods]; exact List.mem_singleton_self _⟩
  · intro hall
    unfold parseLogContent
    rw [parseLines_error_type]
    have hsome : (lastOpt typeSetBy (splitOnChar '\n' lc)).isSome :=
      lastOpt_isSome hmem (by rw [htype]; rfl)
    rcases lastOpt_bounded hall with hb | hb
    · rw [hb] at hsome
      simp at hsome
    · rw [hb]
      rfl

/-- Witness for C5 (amended) at the concrete one-line log. -/
theorem c5_witness :
    "importgui".data ∈ (parseLogContent demoGuiLog).missing_modules
  ∧ (parseLogContent demoGuiLog).error_type = "import_error".data := by
  have h := c5_amended demoGuiLog demoGuiLog (by decide) (by decide) (by decide)
    (by decide) (by decide)
  exact ⟨h.1, h.2 (by decide)⟩

/-- C6 counterexample: on a log whose first line is an ImportError and
whose second line is a SyntaxError, the final `error_type` is
`"syntax_error"` — the later matching line overrode the first — whereas
the claim (first match wins, never overridden) requires
`"import_error"`. -/
theorem c6_counterexample :
    (parseLogContent demoMixedLog).error_type = "syntax_error".data
  ∧ "syntax_error".data ≠ "import_error".data := by decide

/-- C6 amended: the list fields accumulate the contribution of every
matching line, while the scalar fields `error_type` / `error_details`
are overwritten by each assigning line and therefore reflect the LAST
matching line (falling back to the initial `"unknown"` / empty values
when no line assigns them), not the first. -/
theorem c6_amended (lc : Str) :
    (parseLogContent lc).error_type =
      (lastOpt typeSetBy (splitOnChar '\n' lc)).getD "unknown".data
  ∧ (parseLogContent lc).error_details =
      (lastOpt detailsSetBy (splitOnChar '\n' lc)).getD []
  ∧ (parseLogContent lc).missing_modules =
      ((splitOnChar '\n' lc).map missingContrib).flatten
  ∧ (parseLogContent lc).syn_errors =
      ((splitOnChar '\n' lc).map synContrib).flatten
  ∧ (parseLogContent lc).runtime_errors =
      ((splitOnChar '\n' lc).map runtimeContrib).flatten := by
  unfold parseLogContent
  refine ⟨parseLines_error_type _ _, parseLines_error_details _ _, ?_, ?_, ?_⟩
  · rw [parseLines_missing]; rfl
  · rw [parseLines_syn]; rfl
  · rw [parseLines_runtime]; rfl

/-- C7 counterexample: a source whose cylinder call carries exactly the
two literals `(5, 20)` yields the default 10/10 cylinder, because
`_extract_dimensions_from_code` requires at least three numeric literals
before it uses any of them — the emitted script sets `Radius = 10`, and
nowhere `Radius = 5`, even though the error message mentions CadQuery. -/
theorem c7_counterexample :
    hasSub "cylinder.Radius = 10\n".data
      (generateFreecadReplacement demoCylSrc demoCylErr) = true
  ∧ hasSub "cylinder.Radius = 5".data
      (generateFreecadReplacement demoCylSrc demoCylErr) = false := by decide

/-- C7 amended: when the error message mentions CadQuery, the source
contains a cylinder call and no box reference, and the number regex finds
at least three literals of which the first two are `5` and `20`, the
fallback emits the cylinder template with `Radius = 5.0` and
`Height = 20.0` (the extracted literals pass through `float`, so they
render with a trailing `.0`). -/
theorem c7_amended (src err : Str) (t : List Str)
    (herr : hasSub "cadquery".data (lowerS err) = true)
    (hb1 : hasSub ".box(".data src = false)
    (hb2 : hasSub "box".data (lowerS src) = false)
    (hcyl : hasSub ".cylinder(".data src = true)
    (hnums : findNumbers src = "5".data :: "20".data :: t)
    (hne : t ≠ []) :
    hasSub "cylinder.Radius = 5.0\n".data (generateFreecadReplacement src err) = true
  ∧ hasSub "cylinder.Height = 20.0\n".data (generateFreecadReplacement src err) = true := by
  obtain ⟨t0, t', rfl⟩ : ∃ t0 t', t = t0 :: t' := by
    cases t with
    | nil => exact absurd rfl hne
    | cons a b => exact ⟨a, b, rfl⟩
  have hdims : extractDimensionsFromCode src =
      [PyNum.floatVal "5".data, PyNum.floatVal "20".data, PyNum.floatVal t0] := by
    unfold extractDimensionsFromCode
    rw [hnums]
  unfold generateFreecadReplacement
  rw [herr, hb1, hb2, hcyl]
  rw [hdims]
  simp only [Bool.true_or, Bool.or_true, Bool.false_or, Bool.false_eq_true, if_true,
    if_false]
  simp only [generateFreecadCylinder]
  constructor <;> decide

/-- Witness for C7 (amended) at a concrete three-literal cylinder
source. -/
theorem c7_witness :
    hasSub "cylinder.Radius = 5.0\n".data
      (generateFreecadReplacement demoCylSrc3 demoCylErr) = true
  ∧ hasSub "cylinder.Height = 20.0\n".data
      (generateFreecadReplacement demoCylSrc3 demoCylErr) = true :=
  c7_amended demoCylSrc3 demoCylErr ["30".data] (by decide) (by decide) (by decide)
    (by decide) (by decide) (by decide)

end Cadscribe
